import Mathlib

/-!
Shallow embedding of the AI-Document-Summarizer-Chatbot server core
(document ingestion, sentence-based chunking, embedding storage, and the
chat / retrieval-augmented generation pipeline), together with theorems
checking the natural-language specification against it.

Sources embedded:
 - `Models/DocumentModel.js` : `splitTextIntoChunks`, `createEmbeddings`,
   `uploadDocument`, `isImageFile`, `getLoaderByMimeType`;
 - `Controllers/documentController.js` : the multer `fileFilter`;
 - `Models/ChatModel.js` : `createChat`, `addMessage`, `getChat`,
   `processMessage`, `getRelevantContext`.

Modelling conventions: JS strings are Lean `String`s (lengths counted in
characters; every input used in concrete theorems is ASCII, where the two
notions agree); external service calls (OpenAI embeddings / completions /
vision, the Postgres `match_document_embeddings` RPC) are passed in as
`Except`-valued parameters; the Supabase tables are explicit record lists
threaded through each operation; row ids and timestamps come from counters
in the store, mirroring the database's generated ids and the monotone wall
clock.
-/

/-! ## Sentence splitting

`DocumentModel.splitTextIntoChunks` splits on the JS regex
`/(?<=[.!?])\s+/` : every maximal run of whitespace that is immediately
preceded by one of `.`, `!`, `?` is a separator and is consumed; the
pieces between separators (and a leading/trailing empty piece when the
string starts inside no match or ends with a separator, as JS `split`
produces) are the sentences. -/

/-- Boundary punctuation of the lookbehind class `[.!?]`. -/
def isBoundaryPunct (c : Char) : Bool :=
  c = '.' || c = '!' || c = '?'

/-- The characters matched by the JS `\s` class that can occur in the
inputs we consider (space, tab, line feed, carriage return, vertical tab,
form feed). -/
def isJsWhitespace (c : Char) : Bool :=
  c = ' ' || c = '\t' || c = '\n' || c = '\r' || c = '\x0b' || c = '\x0c'

/-- Does the reversed sentence accumulator end (in reading order) with
boundary punctuation?  This is the regex lookbehind `(?<=[.!?])`. -/
def endsWithPunct : List Char → Bool
  | [] => false
  | c :: _ => isBoundaryPunct c

/-- Scan of `text.split(/(?<=[.!?])\s+/)`: `acc` is the current sentence,
reversed, and `skipping` records whether the scan is inside a separator
(a whitespace run immediately preceded by boundary punctuation).  A
whitespace character immediately after boundary punctuation emits the
accumulated sentence and starts a separator; the rest of the whitespace
run is consumed in the `skipping` state; while skipping, `acc` is empty,
so the lookbehind test cannot refire inside the run. -/
def splitSentencesAux : List Char → List Char → Bool → List (List Char)
  | [], acc, _ => [acc.reverse]
  | c :: rest, acc, skipping =>
    if skipping && isJsWhitespace c then
      splitSentencesAux rest acc true
    else if !skipping && isJsWhitespace c && endsWithPunct acc then
      acc.reverse :: splitSentencesAux rest [] true
    else
      splitSentencesAux rest (c :: acc) false

/-- `const sentences = text.split(/(?<=[.!?])\s+/)` in
`DocumentModel.splitTextIntoChunks`. -/
def splitSentences (text : String) : List String :=
  (splitSentencesAux text.data [] false).map String.mk

/-! ## Chunking -/

/-- JS `Array.prototype.join(sep)`: empty string on the empty array, no
trailing separator. -/
def joinSep (sep : String) : List String → String
  | [] => ""
  | [s] => s
  | s :: s2 :: rest => s ++ sep ++ joinSep sep (s2 :: rest)

/-- The sentence-accumulation loop of `DocumentModel.splitTextIntoChunks`:
while `currentChunk.length + sentence.length <= chunkSize` the sentence is
appended (with a separating space when `currentChunk` is non-empty, which
the length test does not count); otherwise the current chunk is flushed if
non-empty and the sentence starts a new chunk.  After the loop a non-empty
`currentChunk` is flushed. -/
def chunksGo (chunkSize : Nat) : List String → String → List String
  | [], currentChunk =>
    if currentChunk = "" then [] else [currentChunk]
  | sentence :: rest, currentChunk =>
    if currentChunk.length + sentence.length ≤ chunkSize then
      chunksGo chunkSize rest
        (if currentChunk = "" then sentence else currentChunk ++ " " ++ sentence)
    else
      if currentChunk = "" then
        chunksGo chunkSize rest sentence
      else
        currentChunk :: chunksGo chunkSize rest sentence

/-- `DocumentModel.splitTextIntoChunks(text, chunkSize)`. -/
def splitTextIntoChunks (text : String) (chunkSize : Nat) : List String :=
  chunksGo chunkSize (splitSentences text) ""

example : splitSentences "Sentence one. Sentence two. Sentence three." =
    ["Sentence one.", "Sentence two.", "Sentence three."] := by decide

example : splitTextIntoChunks "Sentence one. Sentence two. Sentence three." 1000 =
    ["Sentence one. Sentence two. Sentence three."] := by decide

example : splitTextIntoChunks "AAAA. BBBB." 10 = ["AAAA. BBBB."] := by decide

example : splitTextIntoChunks "A.  B." 1000 = ["A. B."] := by decide

example : splitTextIntoChunks "" 1000 = [] := by decide

/-! ## Document model: media-type dispatch and ingestion

Embedding vectors are produced by an external model and no claim computes
on their numeric values, so they are modelled abstractly as `List Int`. -/

/-- A value stored in one column of a Supabase insert object. -/
inductive DbValue where
  | nat : Nat → DbValue
  | str : String → DbValue
  | vec : List Int → DbValue
deriving DecidableEq

/-- The insert object of `DocumentModel.createEmbeddings` (lines 160-166):
`supabase.from('document_embeddings').insert(...)` with exactly the keys
`document_id`, `content`, `embedding`, in that order. -/
def embeddingInsert (documentId : Nat) (chunk : String) (embedding : List Int) :
    List (String × DbValue) :=
  [("document_id", DbValue.nat documentId),
   ("content", DbValue.str chunk),
   ("embedding", DbValue.vec embedding)]

/-- The column names of an insert object. -/
def rowKeys (row : List (String × DbValue)) : List String :=
  row.map Prod.fst

/-- A row of the `documents` table as `uploadDocument` creates it:
metadata inserted first, `content` filled in by a later update. -/
structure DocRow where
  id : Nat
  user_id : Nat
  filename : String
  file_path : String
  file_size : Nat
  content : Option String
deriving DecidableEq

/-- The persistent state touched by document ingestion: the `documents`
table, the `document_embeddings` table, and the id generator. -/
structure DocStore where
  nextId : Nat
  documents : List DocRow
  embeddings : List (List (String × DbValue))
deriving DecidableEq

/-- `supabase.from('documents').update(content).eq('id', docId)`. -/
def updateDocContent (st : DocStore) (docId : Nat) (text : String) : DocStore :=
  { st with documents :=
      st.documents.map fun d => if d.id = docId then { d with content := some text } else d }

/-- `DocumentModel.isImageFile(mimetype)`. -/
def isImageFile (mimetype : String) : Bool :=
  ["image/png", "image/jpeg", "image/jpg"].contains mimetype

/-- The extraction strategies of `DocumentModel.getLoaderByMimeType`. -/
inductive Loader where
  | pdf
  | text
  | docx
deriving DecidableEq

/-- `DocumentModel.getLoaderByMimeType(filePath, mimetype)`: dispatch on
the declared media type; throws for image types (they belong to the image
flow) and for every unrecognized type. -/
def getLoaderByMimeType (mimetype : String) : Except String Loader :=
  if mimetype = "application/pdf" then .ok .pdf
  else if mimetype = "text/plain" then .ok .text
  else if mimetype = "application/msword" ||
      mimetype = "application/vnd.openxmlformats-officedocument.wordprocessingml.document" then
    .ok .docx
  else if isImageFile mimetype then
    .error "Image files should be handled by the image processing flow"
  else
    .error ("Unsupported file type: " ++ mimetype)

/-- The `allowedMimeTypes` list of the multer `fileFilter` in
`Controllers/documentController.js` (lines 29-34). -/
def allowedMimeTypes : List String :=
  ["application/pdf",
   "text/plain",
   "application/msword",
   "application/vnd.openxmlformats-officedocument.wordprocessingml.document"]

/-- The multer `fileFilter`: `true` means the upload is accepted, `false`
means it is rejected with the error
"Only PDF, TXT, DOC, and DOCX files are allowed".  This filter guards the
only upload route (`POST /upload` in `Routes/documentRoutes.js`), so a
file whose declared type it rejects never reaches `DocumentModel`. -/
def fileFilter (mimetype : String) : Bool :=
  allowedMimeTypes.contains mimetype

/-- The loop body of `DocumentModel.createEmbeddings`: for each chunk in
order, call the embedding service (`embed`), and on success insert a
`document_embeddings` row; an embedding failure aborts the loop, keeping
the rows already inserted. -/
def createEmbeddingsGo (documentId : Nat) (embed : String → Except String (List Int)) :
    List String → DocStore → Except String Unit × DocStore
  | [], st => (.ok (), st)
  | chunk :: rest, st =>
    match embed chunk with
    | .error e => (.error e, st)
    | .ok v =>
        createEmbeddingsGo documentId embed rest
          { st with embeddings := st.embeddings ++ [embeddingInsert documentId chunk v] }

/-- `DocumentModel.createEmbeddings(documentId, text)`: chunk the text
with target size 1000 and embed and store each chunk in order. -/
def createEmbeddings (st : DocStore) (documentId : Nat) (text : String)
    (embed : String → Except String (List Int)) : Except String Unit × DocStore :=
  createEmbeddingsGo documentId embed (splitTextIntoChunks text 1000) st

/-- `DocumentModel.uploadDocument(userId, file, filename, mimetype)`.
External calls are parameters: `imageDescription` is the OpenAI vision
call of `getImageDescription`, `loadPages` the `loader.load()` result as
the list of page contents (joined with newlines by the source), `embed`
the per-chunk embedding call.  Step 1 inserts the `documents` metadata
row; any later throw leaves the rows written so far in place. -/
def uploadDocument (st : DocStore) (userId : Nat) (filename filePath : String)
    (fileSize : Nat) (mimetype : String)
    (imageDescription : Except String String)
    (loadPages : Except String (List String))
    (embed : String → Except String (List Int)) :
    Except String DocRow × DocStore :=
  let doc : DocRow :=
    { id := st.nextId, user_id := userId, filename := filename,
      file_path := filePath, file_size := fileSize, content := none }
  let st1 : DocStore :=
    { st with nextId := st.nextId + 1, documents := st.documents ++ [doc] }
  if isImageFile mimetype then
    match imageDescription with
    | .error e => (.error e, st1)
    | .ok desc =>
        let st2 := updateDocContent st1 doc.id desc
        match createEmbeddings st2 doc.id desc embed with
        | (.error e, st3) => (.error e, st3)
        | (.ok _, st3) => (.ok doc, st3)
  else
    match getLoaderByMimeType mimetype with
    | .error e => (.error e, st1)
    | .ok _ =>
      match loadPages with
      | .error e => (.error e, st1)
      | .ok pages =>
          let textContent := joinSep "\n" pages
          let st2 := updateDocContent st1 doc.id textContent
          match createEmbeddings st2 doc.id textContent embed with
          | (.error e, st3) => (.error e, st3)
          | (.ok _, st3) => (.ok doc, st3)

/-! ## Chat model

`ChatModel` state.  Database-generated ids and `created_at` timestamps are
modelled by counters in the store: `now` is a logical clock bumped by each
insert, standing for the strictly increasing wall-clock times of
successive awaited inserts. -/

/-- A row of the `chats` table.  Supabase document ids are uuid strings,
always truthy when present, so `documents?.id` in `processMessage` is
modelled by an `Option`: the chat references a document or it does not. -/
structure ChatRow where
  id : Nat
  user_id : Nat
  document_id : Option Nat
  title : String
  updated_at : Nat
deriving DecidableEq

/-- A row of the `chat_messages` table. -/
structure MessageRow where
  id : Nat
  chat_id : Nat
  role : String
  content : String
  created_at : Nat
deriving DecidableEq

/-- The persistent state touched by the chat pipeline. -/
structure ChatStore where
  nextChatId : Nat
  nextMsgId : Nat
  now : Nat
  chats : List ChatRow
  messages : List MessageRow
  documents : List DocRow
deriving DecidableEq

/-- One message of the prompt sent to the chat-completions call. -/
structure PromptMsg where
  role : String
  content : String
deriving DecidableEq

/-- `ChatModel.createChat(userId, documentId, title = 'New Chat')`: the
`title` parameter is optional in JS and defaults to `'New Chat'` when the
caller passes `undefined`, which `Option.getD` models. -/
def createChat (st : ChatStore) (userId : Nat) (documentId : Option Nat)
    (title : Option String) : ChatRow × ChatStore :=
  let chat : ChatRow :=
    { id := st.nextChatId, user_id := userId, document_id := documentId,
      title := title.getD "New Chat", updated_at := st.now }
  (chat, { st with nextChatId := st.nextChatId + 1, now := st.now + 1,
                   chats := st.chats ++ [chat] })

/-- `ChatModel.addMessage(chatId, role, content)`: insert the message row,
then set the chat's `updated_at` to the current time. -/
def addMessage (st : ChatStore) (chatId : Nat) (role content : String) :
    MessageRow × ChatStore :=
  let msg : MessageRow :=
    { id := st.nextMsgId, chat_id := chatId, role := role,
      content := content, created_at := st.now }
  (msg,
   { st with nextMsgId := st.nextMsgId + 1, now := st.now + 1,
             messages := st.messages ++ [msg],
             chats := st.chats.map fun c =>
               if c.id = chatId then { c with updated_at := st.now } else c })

/-- The chat lookup of `ChatModel.getChat`:
`from('chats').select(...).eq('id', chatId).eq('user_id', userId).single()`. -/
def findChat (st : ChatStore) (chatId userId : Nat) : Option ChatRow :=
  st.chats.find? fun c => c.id = chatId && c.user_id = userId

/-- The `documents (id, filename, content)` relation joined by `getChat`:
the document row referenced by the chat, if any. -/
def findDocument (st : ChatStore) (documentId : Option Nat) : Option DocRow :=
  match documentId with
  | none => none
  | some i => st.documents.find? fun d => d.id = i

/-- Insert a message into a list sorted by `created_at` (ascending). -/
def insertByTime (m : MessageRow) : List MessageRow → List MessageRow
  | [] => [m]
  | x :: xs => if m.created_at < x.created_at then m :: x :: xs else x :: insertByTime m xs

/-- Sort messages by `created_at` ascending. -/
def sortByTime : List MessageRow → List MessageRow
  | [] => []
  | x :: xs => insertByTime x (sortByTime xs)

/-- The message fetch of `ChatModel.getChat`:
`from('chat_messages').select('*').eq('chat_id', chatId)
   .order('created_at', ascending)`. -/
def chatMessagesOf (st : ChatStore) (chatId : Nat) : List MessageRow :=
  sortByTime (st.messages.filter fun m => m.chat_id = chatId)

/-- A row returned by the `match_document_embeddings` RPC: the code reads
only `item.content` from it. -/
structure MatchRow where
  content : String
deriving DecidableEq

/-- `ChatModel.getRelevantContext(documentId, query)`.  The two external
steps are parameters: `queryEmbedding` is the OpenAI embedding of the
query, `matchResult` the rows returned by the
`supabase.rpc('match_document_embeddings', ...)` call (with
`match_threshold: 0.7`, `match_count: 5`; the RPC's SQL is not part of
the repository — per the spec it returns the matching chunks most-similar
first).  Any failure is caught and yields the empty context. -/
def getRelevantContext (queryEmbedding : Except String (List Int))
    (matchResult : Except String (List MatchRow)) : String :=
  match queryEmbedding with
  | .error _ => ""
  | .ok _ =>
    match matchResult with
    | .error _ => ""
    | .ok rows => joinSep "\n\n" (rows.map MatchRow.content)

/-- The system message built by `ChatModel.processMessage` (lines
124-131): the JS template literal, with the retrieved context
interpolated, reproduced with its exact newlines and indentation. -/
def systemMessage (context : String) : PromptMsg :=
  { role := "system",
    content :=
      "You are a helpful assistant answering questions about a document. \n                  Use the following information from the document to inform your answer:\n                  "
        ++ context
        ++ "\n                  \n                  If the answer cannot be found in the document, say so clearly." }

/-- The message list `processMessage` passes to
`openai.chat.completions.create` (lines 136-140): the system message,
then the messages `getChat` returned for the chat in `st1` (the store
after the user message was saved), then the new user message.  `st1` is
the post-save store because step 1 of `processMessage` runs before the
`getChat` of step 2. -/
def promptFor (st1 : ChatStore) (chatId : Nat) (context userMessage : String) :
    List PromptMsg :=
  systemMessage context ::
    (chatMessagesOf st1 chatId).map (fun m => { role := m.role, content := m.content })
    ++ [{ role := "user", content := userMessage }]

/-- `ChatModel.processMessage(chatId, userId, userMessage)`.  External
calls are parameters: `queryEmbedding` and `matchResult` feed
`getRelevantContext`, and `gen` is the chat-completions call, given the
assembled message list.  Steps: save the user message; fetch chat (and
its document) and messages; retrieve context when the chat has a
document; assemble the prompt; generate; save the assistant message.  A
missing chat makes the `.single()` call throw; a generation failure
propagates, leaving the store as it was after step 1. -/
def processMessage (st : ChatStore) (chatId userId : Nat) (userMessage : String)
    (queryEmbedding : Except String (List Int))
    (matchResult : Except String (List MatchRow))
    (gen : List PromptMsg → Except String String) :
    Except String (MessageRow × MessageRow) × ChatStore :=
  let savedUserMessage := (addMessage st chatId "user" userMessage).1
  let st1 := (addMessage st chatId "user" userMessage).2
  match findChat st1 chatId userId with
  | none => (.error "chat not found", st1)
  | some chat =>
    let context :=
      match findDocument st1 chat.document_id with
      | some _ => getRelevantContext queryEmbedding matchResult
      | none => ""
    match gen (promptFor st1 chatId context userMessage) with
    | .error e => (.error e, st1)
    | .ok aiResponse =>
        (.ok (savedUserMessage, (addMessage st1 chatId "assistant" aiResponse).1),
          (addMessage st1 chatId "assistant" aiResponse).2)

/-! ## Helper lemmas about the chunker -/

/-- A string extended with a separating space is never empty. -/
theorem append_space_ne_empty (a b : String) : a ++ " " ++ b ≠ "" := by
  intro h
  have hlen := congrArg String.length h
  simp only [String.length_append, String.length_empty,
    show (" " : String).length = 1 from rfl] at hlen
  omega

/-- Every chunk the accumulation loop emits is bounded by `chunkSize + 1`
(the separating space is not counted by the loop's length test) or is one
of the sentences the loop was fed. -/
theorem chunksGo_length_le (S : Nat) (sents sents0 : List String) (cur : String)
    (hsub : ∀ s ∈ sents, s ∈ sents0)
    (hcur : cur.length ≤ S + 1 ∨ cur ∈ sents0) :
    ∀ c ∈ chunksGo S sents cur, c.length ≤ S + 1 ∨ c ∈ sents0 := by
  induction sents generalizing cur with
  | nil =>
    intro c hc
    simp only [chunksGo] at hc
    split at hc
    · simp at hc
    · simp only [List.mem_singleton] at hc
      exact hc ▸ hcur
  | cons s rest ih =>
    have hsub' : ∀ x ∈ rest, x ∈ sents0 := fun x hx => hsub x (List.mem_cons_of_mem s hx)
    have hs0 : s ∈ sents0 := hsub s (List.mem_cons_self s rest)
    intro c hc
    simp only [chunksGo] at hc
    split at hc
    · rename_i hfit
      refine ih _ hsub' ?_ c hc
      split
      · exact Or.inr hs0
      · left
        simp only [String.length_append,
          show (" " : String).length = 1 from rfl]
        omega
    · split at hc
      · exact ih _ hsub' (Or.inr hs0) c hc
      · rcases List.mem_cons.mp hc with h | h
        · exact h ▸ hcur
        · exact ih _ hsub' (Or.inr hs0) c h

/-- The accumulation loop never emits an empty chunk: both flush sites are
guarded by `if (currentChunk)`. -/
theorem chunksGo_ne_empty (S : Nat) (sents : List String) (cur : String) :
    ∀ c ∈ chunksGo S sents cur, c ≠ "" := by
  induction sents generalizing cur with
  | nil =>
    intro c hc
    simp only [chunksGo] at hc
    split at hc
    · simp at hc
    · rename_i h
      simp only [List.mem_singleton] at hc
      exact hc ▸ h
  | cons s rest ih =>
    intro c hc
    simp only [chunksGo] at hc
    split at hc
    · exact ih _ c hc
    · split at hc
      · exact ih _ c hc
      · rename_i h
        rcases List.mem_cons.mp hc with h1 | h1
        · exact h1 ▸ h
        · exact ih _ c h1

/-- With a non-empty pending chunk the loop emits at least one chunk. -/
theorem chunksGo_ne_nil (S : Nat) (sents : List String) (cur : String)
    (hcur : cur ≠ "") : chunksGo S sents cur ≠ [] := by
  induction sents generalizing cur with
  | nil => simp [chunksGo, hcur]
  | cons s rest ih =>
    simp only [chunksGo, if_neg hcur]
    split
    · exact ih _ (append_space_ne_empty cur s)
    · simp

/-- Unfolding equation of `joinSep` on a list of two or more strings. -/
theorem joinSep_cons_cons (sep a b : String) (l : List String) :
    joinSep sep (a :: b :: l) = a ++ sep ++ joinSep sep (b :: l) := rfl

/-- The loop regroups sentences but keeps exactly one space at every seam:
joining its chunks with a space equals joining the pending chunk and all
remaining sentences with spaces, provided no sentence is empty. -/
theorem joinSep_chunksGo (S : Nat) (sents : List String) (cur : String)
    (hs : ∀ s ∈ sents, s ≠ "") (hcur : cur ≠ "") :
    joinSep " " (chunksGo S sents cur) = joinSep " " (cur :: sents) := by
  induction sents generalizing cur with
  | nil => simp [chunksGo, hcur, joinSep]
  | cons s rest ih =>
    have hsne : s ≠ "" := hs s (List.mem_cons_self s rest)
    have hrest : ∀ x ∈ rest, x ≠ "" := fun x hx => hs x (List.mem_cons_of_mem s hx)
    simp only [chunksGo, if_neg hcur]
    split
    · rw [ih _ hrest (append_space_ne_empty cur s)]
      cases rest with
      | nil => simp [joinSep]
      | cons b r =>
        rw [joinSep_cons_cons, joinSep_cons_cons, joinSep_cons_cons]
        simp only [String.append_assoc]
    · obtain ⟨b, r, hbr⟩ :=
        List.exists_cons_of_ne_nil (chunksGo_ne_nil S rest s hsne)
      rw [hbr, joinSep_cons_cons, ← hbr, ih _ hrest hsne, joinSep_cons_cons]

/-! ## C2: chunk size bound -/

/-- C2, as stated, is false: the loop's test
`currentChunk.length + sentence.length <= chunkSize` does not count the
separating space it inserts, so `splitTextIntoChunks "AAAA. BBBB." 10`
yields the single chunk `"AAAA. BBBB."` of length 11 > 10, which is not a
single sentence of the input (the sentences are `"AAAA."` and `"BBBB."`). -/
theorem chunk_size_bound_counterexample :
    splitTextIntoChunks "AAAA. BBBB." 10 = ["AAAA. BBBB."] ∧
      10 < ("AAAA. BBBB." : String).length ∧
      "AAAA. BBBB." ∉ splitSentences "AAAA. BBBB." := by
  decide

/-- C2 (amended): every chunk `splitTextIntoChunks` returns has length at
most `S + 1` (the uncounted join space can push a merged chunk one past
the target), except a chunk consisting of a single sentence whose own
length exceeds `S`. -/
theorem chunk_size_bound (T : String) (S : Nat) (c : String)
    (hc : c ∈ splitTextIntoChunks T S) :
    c.length ≤ S + 1 ∨ (c ∈ splitSentences T ∧ S < c.length) := by
  have h := chunksGo_length_le S (splitSentences T) (splitSentences T) ""
    (fun _ hx => hx) (Or.inl (by simp)) c hc
  rcases h with h | h
  · exact Or.inl h
  · rcases le_or_lt (c.length) (S + 1) with h2 | h2
    · exact Or.inl h2
    · exact Or.inr ⟨h, by omega⟩

/-- Witness for `chunk_size_bound` at the concrete chunk of the
counterexample input. -/
theorem chunk_size_bound_witness :
    ("AAAA. BBBB." ∈ splitTextIntoChunks "AAAA. BBBB." 10) ∧
      (("AAAA. BBBB." : String).length ≤ 10 + 1 ∨
        ("AAAA. BBBB." ∈ splitSentences "AAAA. BBBB." ∧
          10 < ("AAAA. BBBB." : String).length)) :=
  ⟨by decide, chunk_size_bound "AAAA. BBBB." 10 "AAAA. BBBB." (by decide)⟩

/-! ## C3: chunk reconstruction -/

/-- C3, as stated, is false: the sentence split consumes whole whitespace
runs, while the joins use a single space, so a text with two spaces after
a sentence boundary is not reproduced exactly. -/
theorem chunk_reconstruction_counterexample :
    splitTextIntoChunks "A.  B." 1000 = ["A. B."] ∧
      joinSep " " (splitTextIntoChunks "A.  B." 1000) ≠ "A.  B." := by
  decide

/-- C3 (amended): joining the chunks with the chunker's internal
separator (a single space) reproduces `T` for every target size `S`
whenever `T` itself is the single-space join of its sentences — that is,
whenever every sentence-boundary whitespace run of `T` is one space and
`T` does not end in such a run.  In general the reconstruction holds only
up to collapsing each sentence separator to a single space. -/
theorem chunk_reconstruction (T : String) (S : Nat)
    (h1 : "" ∉ splitSentences T)
    (h2 : joinSep " " (splitSentences T) = T) :
    joinSep " " (splitTextIntoChunks T S) = T := by
  unfold splitTextIntoChunks
  cases hs : splitSentences T with
  | nil =>
    rw [hs] at h2
    simpa [chunksGo, joinSep] using h2
  | cons s rest =>
    rw [hs] at h1 h2
    have hsne : s ≠ "" := fun h => h1 (h ▸ List.mem_cons_self s rest)
    have hrest : ∀ x ∈ rest, x ≠ "" :=
      fun x hx h => h1 (h ▸ List.mem_cons_of_mem s hx)
    have hstep : chunksGo S (s :: rest) "" = chunksGo S rest s := by
      simp [chunksGo]
    rw [hstep, joinSep_chunksGo S rest s hrest hsne, h2]

/-- Witness for `chunk_reconstruction` on a two-sentence text whose
separator is a single space, with a target size forcing a flush. -/
theorem chunk_reconstruction_witness :
    ("" ∉ splitSentences "A. B.") ∧
      joinSep " " (splitSentences "A. B.") = "A. B." ∧
      joinSep " " (splitTextIntoChunks "A. B." 3) = "A. B." :=
  ⟨by decide, by decide, chunk_reconstruction "A. B." 3 (by decide) (by decide)⟩

/-! ## C9: no empty chunks -/

/-- C9: no chunk returned by `splitTextIntoChunks` is the empty string,
and the empty text yields the empty chunk list (its single empty sentence
is never flushed). -/
theorem chunks_nonempty (T : String) (S : Nat) :
    (∀ c ∈ splitTextIntoChunks T S, c ≠ "") ∧ splitTextIntoChunks "" S = [] := by
  refine ⟨fun c hc => chunksGo_ne_empty S (splitSentences T) "" c hc, ?_⟩
  show chunksGo S (splitSentences "") "" = []
  have hsent : splitSentences "" = [""] := by decide
  rw [hsent]
  simp [chunksGo, Nat.zero_le]

/-- Witness for `chunks_nonempty`: a concrete chunk of a concrete text is
non-empty, and the empty text has no chunks. -/
theorem chunks_nonempty_witness :
    ("x." ∈ splitTextIntoChunks "x. y." 1) ∧ ("x." : String) ≠ "" ∧
      splitTextIntoChunks "" 1 = [] :=
  ⟨by decide, (chunks_nonempty "x. y." 1).1 "x." (by decide),
    (chunks_nonempty "x. y." 1).2⟩

/-! ## C4: chunk records and ordinals -/

/-- When every embedding call succeeds, `createEmbeddingsGo` appends one
`document_embeddings` row per chunk, in chunk order. -/
theorem createEmbeddingsGo_ok (documentId : Nat) (f : String → List Int)
    (chunks : List String) (st : DocStore) :
    createEmbeddingsGo documentId (fun c => .ok (f c)) chunks st =
      (.ok (), { st with embeddings := st.embeddings ++
                   chunks.map (fun c => embeddingInsert documentId c (f c)) }) := by
  induction chunks generalizing st with
  | nil => simp [createEmbeddingsGo]
  | cons c rest ih => simp [createEmbeddingsGo, ih]

/-- C4, as stated, is false: the persisted chunk record of
`createEmbeddings` has exactly the columns
`document_id`, `content`, `embedding` — no `ordinal` column exists.
Concretely, ingesting the one-chunk text `"Hello."` for document 1 stores
a single row without an `ordinal` key. -/
theorem embedding_rows_no_ordinal_counterexample :
    (createEmbeddings ⟨0, [], []⟩ 1 "Hello." fun _ => .ok [1]).2.embeddings =
      [[("document_id", DbValue.nat 1), ("content", DbValue.str "Hello."),
        ("embedding", DbValue.vec [1])]] ∧
      "ordinal" ∉ rowKeys [("document_id", DbValue.nat 1),
        ("content", DbValue.str "Hello."), ("embedding", DbValue.vec [1])] := by
  constructor
  · rfl
  · decide

/-- C4 (amended): each chunk record persisted during ingestion carries
exactly `document_id`, `content` and `embedding` — no ordinal column —
and the records of a document are inserted sequentially in original-text
order, so the i-th inserted record holds the i-th chunk (the position in
the insertion sequence plays the role of the zero-based ordinal, but no
ordinal is stored). -/
theorem embedding_rows_order (st : DocStore) (documentId : Nat) (text : String)
    (f : String → List Int) :
    createEmbeddings st documentId text (fun c => .ok (f c)) =
      (.ok (), { st with embeddings := (st.embeddings ++
                   (splitTextIntoChunks text 1000).map
                     (fun c => embeddingInsert documentId c (f c))) }) ∧
    ∀ c v, rowKeys (embeddingInsert documentId c v) =
      ["document_id", "content", "embedding"] :=
  ⟨createEmbeddingsGo_ok documentId f (splitTextIntoChunks text 1000) st,
    fun _ _ => rfl⟩

/-! ## C5: extraction failure during upload -/

/-- C5, as stated, is false: `uploadDocument` inserts the `documents`
metadata row before extraction runs, and a loader failure propagates
without deleting it.  Starting from an empty store, a failed PDF
extraction leaves the error and one persisted `documents` row. -/
theorem upload_extraction_failure_counterexample :
    uploadDocument ⟨0, [], []⟩ 1 "f.pdf" "uploads/f.pdf" 10 "application/pdf"
        (.error "no image") (.error "extract failed") (fun _ => .ok []) =
      (.error "extract failed",
        ⟨1, [⟨0, 1, "f.pdf", "uploads/f.pdf", 10, none⟩], []⟩) := rfl

/-- C5 (amended): when text extraction fails for a recognized non-image
media type, the failure propagates to the caller and no chunk rows are
stored, but the `documents` row inserted in step 1 remains persisted
(with no extracted content). -/
theorem upload_extraction_failure (st : DocStore) (userId : Nat)
    (filename filePath : String) (fileSize : Nat) (mimetype : String)
    (imageDescription : Except String String) (e : String)
    (embed : String → Except String (List Int)) (ldr : Loader)
    (himg : isImageFile mimetype = false)
    (hldr : getLoaderByMimeType mimetype = .ok ldr) :
    uploadDocument st userId filename filePath fileSize mimetype
        imageDescription (.error e) embed =
      (.error e,
        { st with nextId := st.nextId + 1,
                  documents := st.documents ++
                    [{ id := st.nextId, user_id := userId, filename := filename,
                       file_path := filePath, file_size := fileSize,
                       content := none }] }) := by
  simp [uploadDocument, himg, hldr]

/-- Witness for `upload_extraction_failure` at a concrete PDF upload. -/
theorem upload_extraction_failure_witness :
    isImageFile "application/pdf" = false ∧
      getLoaderByMimeType "application/pdf" = .ok Loader.pdf ∧
      uploadDocument ⟨5, [], []⟩ 2 "a.pdf" "uploads/a.pdf" 3 "application/pdf"
          (.ok "desc") (.error "boom") (fun _ => .ok []) =
        (.error "boom", ⟨6, [⟨5, 2, "a.pdf", "uploads/a.pdf", 3, none⟩], []⟩) :=
  ⟨rfl, rfl,
    upload_extraction_failure ⟨5, [], []⟩ 2 "a.pdf" "uploads/a.pdf" 3
      "application/pdf" (.ok "desc") "boom" (fun _ => .ok []) Loader.pdf rfl rfl⟩

/-! ## C8: accepted media types -/

/-- C8: the upload route's multer `fileFilter` accepts exactly
pdf / plain text / doc / docx, and rejects `image/png` and `image/jpeg` —
even though `DocumentModel` recognizes them (`isImageFile`) and
`uploadDocument` contains a complete vision-description flow for them,
which the filter therefore makes unreachable from the upload route.  An
undeclared type such as `text/markdown` is rejected by the filter, and
`getLoaderByMimeType` would also refuse it. -/
theorem fileFilter_rejects_images :
    fileFilter "image/png" = false ∧
      fileFilter "image/jpeg" = false ∧
      isImageFile "image/png" = true ∧
      isImageFile "image/jpeg" = true ∧
      fileFilter "application/pdf" = true ∧
      fileFilter "text/plain" = true ∧
      fileFilter "application/msword" = true ∧
      fileFilter "application/vnd.openxmlformats-officedocument.wordprocessingml.document" = true ∧
      fileFilter "text/markdown" = false ∧
      getLoaderByMimeType "text/markdown" =
        .error "Unsupported file type: text/markdown" :=
  ⟨rfl, rfl, rfl, rfl, rfl, rfl, rfl, rfl, rfl, rfl⟩

/-! ## Helper lemmas about message ordering -/

/-- Inserting a message whose timestamp is strictly later than that of a
fixed message already at the back keeps that message at the back. -/
theorem insertByTime_append_last (m x : MessageRow) (l : List MessageRow)
    (h : m.created_at < x.created_at) :
    insertByTime m (l ++ [x]) = insertByTime m l ++ [x] := by
  induction l with
  | nil => simp [insertByTime, h]
  | cons y l ih =>
    simp only [List.cons_append, insertByTime, List.append_eq]
    split
    · simp
    · rw [ih]
      simp

/-- Sorting a message list whose last element has the strictly largest
timestamp keeps that element last. -/
theorem sortByTime_append_last (l : List MessageRow) (x : MessageRow)
    (h : ∀ m ∈ l, m.created_at < x.created_at) :
    sortByTime (l ++ [x]) = sortByTime l ++ [x] := by
  induction l with
  | nil => simp [sortByTime, insertByTime]
  | cons y l ih =>
    simp only [List.cons_append, sortByTime, List.append_eq]
    rw [ih fun m hm => h m (List.mem_cons_of_mem y hm),
      insertByTime_append_last y x (sortByTime l) (h y (List.mem_cons_self y l))]

/-- In a store whose clock is ahead of every stored message (true of
every store the model builds, since each insert bumps the clock), the
message list `getChat` reads after `addMessage` is the old list with the
new message appended. -/
theorem chatMessagesOf_addMessage (st : ChatStore) (chatId : Nat)
    (role content : String)
    (hclock : ∀ m ∈ st.messages, m.created_at < st.now) :
    chatMessagesOf (addMessage st chatId role content).2 chatId =
      chatMessagesOf st chatId ++
        [{ id := st.nextMsgId, chat_id := chatId, role := role,
           content := content, created_at := st.now }] := by
  unfold chatMessagesOf addMessage
  simp only [List.filter_append]
  rw [show (List.filter (fun m => decide (m.chat_id = chatId))
      [({ id := st.nextMsgId, chat_id := chatId, role := role,
          content := content, created_at := st.now } : MessageRow)]) =
      [{ id := st.nextMsgId, chat_id := chatId, role := role,
         content := content, created_at := st.now }] by simp]
  exact sortByTime_append_last _ _
    fun m hm => hclock m (List.mem_filter.mp hm).1

/-! ## C1: prompt assembly -/

/-- A chat store with one chat (id 1, owner 7, no document) and no
messages, used for concrete chat runs. -/
def chatStoreNoDoc : ChatStore :=
  ⟨2, 0, 0, [⟨1, 7, none, "New Chat", 0⟩], [], []⟩

/-- C1, as stated, is false: `processMessage` saves the user message
before `getChat` fetches the history, so the fetched history already ends
with the new user message and step 6 appends it again.  Running a turn on
an empty chat against a generator that replies with one `x` per
occurrence of the new user message in the list it is given yields the
assistant content `"xx"`: the model was called with the new user message
twice, not exactly once. -/
theorem prompt_duplicate_user_counterexample :
    (processMessage chatStoreNoDoc 1 7 "Hi" (.ok [1]) (.ok [])
        (fun msgs => .ok (String.mk (List.replicate
          (msgs.count { role := "user", content := "Hi" }) 'x')))).1 =
      .ok (⟨0, 1, "user", "Hi", 0⟩, ⟨1, 1, "assistant", "xx", 1⟩) ∧
    ((promptFor (addMessage chatStoreNoDoc 1 "user" "Hi").2 1 "" "Hi").count
        { role := "user", content := "Hi" }) = 2 := by
  constructor
  · rfl
  · decide

/-- C1 (amended): the message list passed to the generative model is the
system message embedding the retrieved context, followed by the chat's
message history in chronological order as read after the new user message
was persisted — so the history already ends with the new user message —
followed by the new user message once more; the new user message
therefore occurs twice, not exactly once.  Stated for every store whose
clock is ahead of its stored messages, as in every reachable store. -/
theorem prompt_assembly (st : ChatStore) (chatId : Nat)
    (context userMessage : String)
    (hclock : ∀ m ∈ st.messages, m.created_at < st.now) :
    promptFor (addMessage st chatId "user" userMessage).2 chatId context userMessage =
      systemMessage context ::
        ((chatMessagesOf st chatId).map
            (fun m => { role := m.role, content := m.content }) ++
          [{ role := "user", content := userMessage },
           { role := "user", content := userMessage }]) := by
  unfold promptFor
  rw [chatMessagesOf_addMessage st chatId "user" userMessage hclock]
  simp

/-- Witness for `prompt_assembly` on a store holding one prior message. -/
theorem prompt_assembly_witness :
    (∀ m ∈ (⟨2, 1, 1, [⟨1, 7, none, "New Chat", 0⟩],
        [⟨0, 1, "user", "Q0", 0⟩], []⟩ : ChatStore).messages,
      m.created_at < 1) ∧
    promptFor (addMessage (⟨2, 1, 1, [⟨1, 7, none, "New Chat", 0⟩],
        [⟨0, 1, "user", "Q0", 0⟩], []⟩ : ChatStore) 1 "user" "Hi").2 1 "ctx" "Hi" =
      systemMessage "ctx" ::
        ([{ role := "user", content := "Q0" }] ++
          [{ role := "user", content := "Hi" },
           { role := "user", content := "Hi" }]) :=
  ⟨by decide,
    prompt_assembly ⟨2, 1, 1, [⟨1, 7, none, "New Chat", 0⟩],
      [⟨0, 1, "user", "Q0", 0⟩], []⟩ 1 "ctx" "Hi" (by decide)⟩

/-! ## C6: retrieval failure falls back to empty context -/

/-- A chat store whose only chat references document 9, which has no row
in the `documents` table. -/
def chatStoreMissingDoc : ChatStore :=
  ⟨2, 0, 0, [⟨1, 7, some 9, "New Chat", 0⟩], [], []⟩

/-- C6: a failing query embedding or a failing vector-store call makes
the whole `sendMessage` turn behave exactly as if retrieval had found no
chunks — `getRelevantContext` swallows the failure and returns the empty
context — and an absent document likewise yields the empty context; the
turn still reaches generation and succeeds, as the concrete run with both
retrieval steps failing (and the chat's document missing) shows. -/
theorem retrieval_failure_degraded (st : ChatStore) (chatId userId : Nat)
    (userMessage e e' : String) (mr : Except String (List MatchRow))
    (v : List Int) (gen : List PromptMsg → Except String String) :
    processMessage st chatId userId userMessage (.error e) mr gen =
      processMessage st chatId userId userMessage (.ok []) (.ok []) gen ∧
    processMessage st chatId userId userMessage (.ok v) (.error e') gen =
      processMessage st chatId userId userMessage (.ok []) (.ok []) gen ∧
    getRelevantContext (Except.error e) mr = "" ∧
    getRelevantContext (.ok v) (.error e') = "" ∧
    (processMessage chatStoreMissingDoc 1 7 "Hi" (.error "embedding down")
        (.error "store down") (fun _ => .ok "reply")).1 =
      .ok (⟨0, 1, "user", "Hi", 0⟩, ⟨1, 1, "assistant", "reply", 1⟩) := by
  refine ⟨?_, ?_, rfl, ?_, rfl⟩
  · simp [processMessage, getRelevantContext, joinSep]
  · simp [processMessage, getRelevantContext, joinSep]
  · cases mr <;> rfl

/-! ## C7: generation failure -/

/-- C7: when the generative-model call fails, `processMessage` fails as a
whole — the error propagates, no assistant message is saved and nothing
is returned — while the store keeps exactly the user message persisted in
step 1, appended to the previous messages. -/
theorem generation_failure_aborts (st : ChatStore) (chatId userId : Nat)
    (userMessage e : String) (qe : Except String (List Int))
    (mr : Except String (List MatchRow))
    (gen : List PromptMsg → Except String String) (chat : ChatRow)
    (hchat : findChat (addMessage st chatId "user" userMessage).2 chatId userId =
      some chat)
    (hgen : ∀ msgs, gen msgs = .error e) :
    processMessage st chatId userId userMessage qe mr gen =
      (.error e, (addMessage st chatId "user" userMessage).2) ∧
    (addMessage st chatId "user" userMessage).2.messages =
      st.messages ++
        [{ id := st.nextMsgId, chat_id := chatId, role := "user",
           content := userMessage, created_at := st.now }] := by
  refine ⟨?_, rfl⟩
  unfold processMessage
  simp only [hchat, hgen]

/-- Witness for `generation_failure_aborts` on a concrete store and an
always-failing generator. -/
theorem generation_failure_aborts_witness :
    (findChat (addMessage chatStoreNoDoc 1 "user" "Hi").2 1 7 =
      some ⟨1, 7, none, "New Chat", 0⟩) ∧
    (∀ msgs, (fun _ => Except.error "llm down" :
        List PromptMsg → Except String String) msgs = .error "llm down") ∧
    (processMessage chatStoreNoDoc 1 7 "Hi" (.ok []) (.ok [])
        (fun _ => .error "llm down") =
      (.error "llm down", (addMessage chatStoreNoDoc 1 "user" "Hi").2) ∧
    (addMessage chatStoreNoDoc 1 "user" "Hi").2.messages =
      chatStoreNoDoc.messages ++ [⟨0, 1, "user", "Hi", 0⟩]) :=
  ⟨rfl, fun _ => rfl,
    generation_failure_aborts chatStoreNoDoc 1 7 "Hi" "llm down" (.ok []) (.ok [])
      (fun _ => .error "llm down") ⟨1, 7, none, "New Chat", 0⟩ rfl fun _ => rfl⟩

/-! ## C10: default chat title -/

/-- C10: a `createChat` call with the title omitted (JS `undefined`,
modelled as `none`) persists the chat with the default title
`'New Chat'`, both in the returned row and in the stored table. -/
theorem createChat_default_title (st : ChatStore) (userId : Nat)
    (documentId : Option Nat) :
    (createChat st userId documentId none).1.title = "New Chat" ∧
    (createChat st userId documentId none).2.chats =
      st.chats ++ [(createChat st userId documentId none).1] :=
  ⟨rfl, rfl⟩
